import Mathlib

/-!
Shallow embedding of the user-authentication subsystem of the repository
(package `internal/user`: `store.go`-style store over `users`,
`user_sessions` and `password_resets`, and the HTTP handlers in
`handlers.go`).  Machine time is a natural number `now`; SQL `NOW()`
comparisons `expires_at > NOW()` become `now < expiresAt`.  The bcrypt
hasher, the password verifier and the random token generator are
injected as parameters, mirroring the code's calls into
`golang.org/x/crypto/bcrypt` and `crypto/rand`.  Timestamps serialize as
numeric model values.
-/

namespace UserApi

/-! ### Go string helpers (`strings` package subset used by the code) -/

/-- `unicode.IsSpace` on the Latin-1 range, the whitespace set
`strings.TrimSpace` trims (higher Unicode white-space code points are
outside the inputs this development touches). -/
def goIsSpace (c : Char) : Bool :=
  c = ' ' || c = '\t' || c = '\n' || c = '\x0b' || c = '\x0c' || c = '\r' ||
    c = '\u0085' || c = '\u00A0'

/-- `strings.TrimSpace`. -/
def trimSpace (s : String) : String :=
  String.mk (((s.data.dropWhile goIsSpace).reverse.dropWhile goIsSpace).reverse)

/-- ASCII case folding as applied by `strings.ToLower` on the inputs in
scope. -/
def lowerChar (c : Char) : Char :=
  if 'A' ≤ c && c ≤ 'Z' then Char.ofNat (c.toNat + 32) else c

/-- `strings.ToLower`. -/
def toLowerGo (s : String) : String :=
  String.mk (s.data.map lowerChar)

/-- `strings.Contains(s, string(c))` for a single character needle. -/
def goContainsChar (s : String) (c : Char) : Bool :=
  s.data.contains c

/-- `strings.HasPrefix`. -/
def goHasPrefix (s pre : String) : Bool :=
  pre.data.isPrefixOf s.data

/-- `strings.TrimPrefix`. -/
def goTrimPrefix (s pre : String) : String :=
  if goHasPrefix s pre then String.mk (s.data.drop pre.data.length) else s

/-- Go `len` on a string: its UTF-8 byte count. -/
def goLen (s : String) : Nat :=
  s.data.foldl (fun n c => n + c.utf8Size) 0

/-! ### JSON values (the fragment `encoding/json` produces here) -/

inductive JsonVal where
  | null
  | bool (b : Bool)
  | num (n : Int)
  | str (s : String)
  | obj (fields : List (String × JsonVal))

/-- Keys of a top-level JSON object. -/
def topKeys : JsonVal → List String
  | .obj fields => fields.map Prod.fst
  | _ => []

/-- Whether the key `k` occurs in `v`, at the top level or one object
level down — the deepest nesting any response body in this API has. -/
def hasKeyDepth2 (k : String) (v : JsonVal) : Bool :=
  match v with
  | .obj fields =>
      fields.any (fun p =>
        p.1 == k ||
          (match p.2 with
           | .obj inner => inner.any (fun q => q.1 == k)
           | _ => false))
  | _ => false

/-- All string leaves of `v`, down to the same depth. -/
def leafStrings (v : JsonVal) : List String :=
  match v with
  | .str s => [s]
  | .obj fields =>
      (fields.map (fun p =>
        match p.2 with
        | .str s => [s]
        | .obj inner => inner.filterMap (fun q =>
            match q.2 with
            | .str t => some t
            | _ => none)
        | _ => [])).flatten
  | _ => []

/-! ### Data model (tables of `002_users.sql`, structs of `models.go`) -/

structure User where
  id : Nat
  email : String
  name : String
  passwordHash : String
  createdAt : Nat
  updatedAt : Nat
  deriving DecidableEq, Repr

/-- A row of `user_sessions` (the serial row id, never read by the code,
is omitted). -/
structure SessionRow where
  userId : Nat
  token : String
  expiresAt : Nat
  deriving DecidableEq, Repr

/-- A row of `password_resets`. -/
structure ResetRow where
  userId : Nat
  token : String
  expiresAt : Nat
  deriving DecidableEq, Repr

/-- The API-facing `Session` struct (`token`, `expires_at`). -/
structure Session where
  token : String
  expiresAt : Nat
  deriving DecidableEq, Repr

/-- Database state: the three tables plus the `BIGSERIAL` counter for
`users.id`. -/
structure DBState where
  users : List User
  sessions : List SessionRow
  resets : List ResetRow
  nextUserId : Nat
  deriving DecidableEq, Repr

/-! ### Backend errors and their classification (store boundary) -/

/-- Raw backend errors: `sql.ErrNoRows`, a `pgconn.PgError` with its
code, or any other driver failure. -/
inductive DbErr where
  | noRows
  | pg (code : String)
  | other
  deriving DecidableEq, Repr

def uniqueViolationCode : String := "23505"

/-- `isUniqueViolation`: `errors.As` into `*pgconn.PgError` and compare
the code. -/
def isUniqueViolation : DbErr → Bool
  | .pg code => code == uniqueViolationCode
  | _ => false

/-- Errors the store returns to handlers: the sentinel `ErrEmailExists`
or a raw backend error passed through. -/
inductive StoreErr where
  | emailExists
  | db (e : DbErr)
  deriving DecidableEq, Repr

/-! ### Store operations (`Store` methods) -/

/-- The raw `INSERT INTO users ... RETURNING ...`: the `UNIQUE` email
constraint makes a duplicate insert fail with PostgreSQL error code
23505. -/
def rawInsertUser (st : DBState) (now : Nat) (email name passwordHash : String) :
    Except DbErr (User × DBState) :=
  if st.users.any (fun u => u.email == email) then
    .error (.pg uniqueViolationCode)
  else
    let u : User :=
      { id := st.nextUserId, email := email, name := name,
        passwordHash := passwordHash, createdAt := now, updatedAt := now }
    .ok (u, { st with users := st.users ++ [u], nextUserId := st.nextUserId + 1 })

/-- `Store.CreateUser`: run the insert; translate a unique violation
into `ErrEmailExists`, pass other errors through. -/
def Store.CreateUser (st : DBState) (now : Nat) (email name passwordHash : String) :
    Except StoreErr (User × DBState) :=
  match rawInsertUser st now email name passwordHash with
  | .error e => if isUniqueViolation e then .error .emailExists else .error (.db e)
  | .ok r => .ok r

/-- `Store.GetUserByEmail`: `SELECT ... WHERE email = $1`; an absent row
is `sql.ErrNoRows`. -/
def Store.GetUserByEmail (st : DBState) (email : String) : Except StoreErr User :=
  match st.users.find? (fun u => u.email == email) with
  | some u => .ok u
  | none => .error (.db .noRows)

/-- `Store.GetUserByID`. -/
def Store.GetUserByID (st : DBState) (id : Nat) : Except StoreErr User :=
  match st.users.find? (fun u => u.id == id) with
  | some u => .ok u
  | none => .error (.db .noRows)

/-- The raw `UPDATE users SET email = COALESCE($1, email), name =
COALESCE($2, name), updated_at = NOW() WHERE id = $3 RETURNING ...`:
no matching row is `sql.ErrNoRows`; giving the row another user's email
violates the unique constraint (code 23505). -/
def rawUpdateUser (st : DBState) (now : Nat) (id : Nat)
    (emailOpt nameOpt : Option String) : Except DbErr (User × DBState) :=
  match st.users.find? (fun u => u.id == id) with
  | none => .error .noRows
  | some u0 =>
    let newEmail := emailOpt.getD u0.email
    if st.users.any (fun v => v.id != id && v.email == newEmail) then
      .error (.pg uniqueViolationCode)
    else
      let upd : User → User := fun v =>
        { v with email := emailOpt.getD v.email, name := nameOpt.getD v.name,
                 updatedAt := now }
      .ok (upd u0, { st with users := st.users.map (fun v => if v.id == id then upd v else v) })

/-- `Store.UpdateUser` with the request's optional fields (`nil` maps to
SQL `NULL`, so `COALESCE` keeps the old value). -/
def Store.UpdateUser (st : DBState) (now : Nat) (id : Nat)
    (emailOpt nameOpt : Option String) : Except StoreErr (User × DBState) :=
  match rawUpdateUser st now id emailOpt nameOpt with
  | .error e => if isUniqueViolation e then .error .emailExists else .error (.db e)
  | .ok r => .ok r

/-- `Store.CreateSession`: insert and return `(token, expires_at)`. -/
def Store.CreateSession (st : DBState) (userId : Nat) (token : String)
    (expiresAt : Nat) : Session × DBState :=
  (⟨token, expiresAt⟩,
   { st with sessions := st.sessions ++ [⟨userId, token, expiresAt⟩] })

/-- `Store.GetUserBySessionToken`: `SELECT u.* FROM user_sessions s JOIN
users u ON u.id = s.user_id WHERE s.token = $1 AND s.expires_at >
NOW()`; no row is `sql.ErrNoRows`. -/
def Store.GetUserBySessionToken (st : DBState) (now : Nat) (token : String) :
    Except StoreErr User :=
  match st.sessions.find? (fun s => s.token == token && now < s.expiresAt) with
  | none => .error (.db .noRows)
  | some s =>
    match st.users.find? (fun u => u.id == s.userId) with
    | none => .error (.db .noRows)
    | some u => .ok u

/-- `Store.CreatePasswordReset`: plain insert. -/
def Store.CreatePasswordReset (st : DBState) (userId : Nat) (token : String)
    (expiresAt : Nat) : DBState :=
  { st with resets := st.resets ++ [⟨userId, token, expiresAt⟩] }

/-- Fault injection for the steps of the consume transaction: which of
`BeginTx`, the password `UPDATE`, the token `DELETE` and `Commit` fail
with a backend error. -/
structure TxFaults where
  beginFail : Bool
  updateFail : Bool
  deleteFail : Bool
  commitFail : Bool
  deriving DecidableEq, Repr

def TxFaults.noFaults : TxFaults := ⟨false, false, false, false⟩

/-- `Store.ConsumePasswordReset`: one transaction that (a) selects an
unexpired `password_resets` row by token `FOR UPDATE`, (b) updates the
owning user's `password_hash` and `updated_at`, (c) deletes the token
row, then commits.  The deferred `tx.Rollback()` means every error path
leaves the database exactly as it was, so the function returns the
original state alongside the error; only a committed transaction
returns the new state. -/
def Store.ConsumePasswordReset (f : TxFaults) (st : DBState) (now : Nat)
    (token newHash : String) : Except StoreErr User × DBState :=
  if f.beginFail then (.error (.db .other), st)
  else
    match st.resets.find? (fun r => r.token == token && now < r.expiresAt) with
    | none => (.error (.db .noRows), st)
    | some r =>
      if f.updateFail then (.error (.db .other), st)
      else
        match st.users.find? (fun u => u.id == r.userId) with
        | none => (.error (.db .noRows), st)
        | some u0 =>
          if f.deleteFail then (.error (.db .other), st)
          else if f.commitFail then (.error (.db .other), st)
          else
            (.ok { u0 with passwordHash := newHash, updatedAt := now },
             { st with
                users := st.users.map (fun v =>
                  if v.id == r.userId then
                    { v with passwordHash := newHash, updatedAt := now }
                  else v),
                resets := st.resets.filter (fun q => q.token != token) })

/-! ### Request structs and HTTP responses (`models.go`, `handlers.go`) -/

structure RegisterRequest where
  email : String
  password : String
  name : String
  deriving DecidableEq, Repr

structure LoginRequest where
  email : String
  password : String
  deriving DecidableEq, Repr

structure UpdateProfileRequest where
  email : Option String
  name : Option String
  deriving DecidableEq, Repr

structure ForgotPasswordRequest where
  email : String
  deriving DecidableEq, Repr

structure ResetPasswordRequest where
  token : String
  newPassword : String
  deriving DecidableEq, Repr

/-- An HTTP response as the handlers produce it: status code plus the
JSON body written by `writeJSON`. -/
structure HttpResponse where
  status : Nat
  body : JsonVal

/-- `writeError`: `{"error": message}` with the given status. -/
def errorResponse (status : Nat) (message : String) : HttpResponse :=
  ⟨status, .obj [("error", .str message)]⟩

/-- `encoding/json` on the `User` struct: fields in declaration order,
`PasswordHash` dropped by its `json:"-"` tag. -/
def User.toJson (u : User) : JsonVal :=
  .obj [("id", .num u.id), ("email", .str u.email), ("name", .str u.name),
        ("created_at", .num u.createdAt), ("updated_at", .num u.updatedAt)]

/-- `encoding/json` on the `Session` struct. -/
def Session.toJson (s : Session) : JsonVal :=
  .obj [("token", .str s.token), ("expires_at", .num s.expiresAt)]

/-- `encoding/json` on `LoginResponse{User, Session}`. -/
def LoginResponse.toJson (u : User) (s : Session) : JsonVal :=
  .obj [("user", u.toJson), ("session", s.toJson)]

/-! ### Validation helpers -/

def minPasswordLength : Nat := 8

/-- `normalizeEmail`: `strings.ToLower(strings.TrimSpace(value))`. -/
def normalizeEmail (value : String) : String :=
  toLowerGo (trimSpace value)

/-- `isValidEmail`: non-empty and contains `"@"`. -/
def isValidEmail (value : String) : Bool :=
  value != "" && goContainsChar value '@'

/-! ### Handlers on parsed request structs

Each handler is a function from the parsed request, the database state
and the clock to the response and the new state.  The injectable
collaborators are `hashF` (bcrypt hashing, `none` = hashing failure),
`verify` (bcrypt comparison, `true` = password matches) and `tokGen`
(the `crypto/rand` token, `none` = entropy failure). -/

/-- `handleRegister` after JSON decoding. -/
def Handler.handleRegisterCore (hashF : String → Option String)
    (input : RegisterRequest) (st : DBState) (now : Nat) : HttpResponse × DBState :=
  let email := normalizeEmail input.email
  let name := trimSpace input.name
  if !(isValidEmail email) then (errorResponse 400 "invalid email", st)
  else if name == "" then (errorResponse 400 "name is required", st)
  else if goLen input.password < minPasswordLength then
    (errorResponse 400 "password too short", st)
  else
    match hashF input.password with
    | none => (errorResponse 500 "failed to hash password", st)
    | some hash =>
      match Store.CreateUser st now email name hash with
      | .error .emailExists => (errorResponse 409 "email already exists", st)
      | .error (.db _) => (errorResponse 500 "failed to create user", st)
      | .ok (u, st') => (⟨201, u.toJson⟩, st')

/-- `handleLogin` after JSON decoding. -/
def Handler.handleLoginCore (verify : String → String → Bool)
    (tokGen : Option String) (sessionTTL : Nat)
    (input : LoginRequest) (st : DBState) (now : Nat) : HttpResponse × DBState :=
  let email := normalizeEmail input.email
  if !(isValidEmail email) then (errorResponse 400 "invalid email", st)
  else
    match Store.GetUserByEmail st email with
    | .error (.db .noRows) => (errorResponse 401 "invalid credentials", st)
    | .error _ => (errorResponse 500 "failed to load user", st)
    | .ok user =>
      if !(verify user.passwordHash input.password) then
        (errorResponse 401 "invalid credentials", st)
      else
        match tokGen with
        | none => (errorResponse 500 "failed to create session", st)
        | some token =>
          let expiresAt := now + sessionTTL
          let (session, st') := Store.CreateSession st user.id token expiresAt
          (⟨200, LoginResponse.toJson user session⟩, st')

/-- `handleForgotPassword` after JSON decoding.  The known-email success
body is a Go `map`, so `encoding/json` emits its keys sorted. -/
def Handler.handleForgotCore (tokGen : Option String) (resetTTL : Nat)
    (input : ForgotPasswordRequest) (st : DBState) (now : Nat) : HttpResponse × DBState :=
  let email := normalizeEmail input.email
  if !(isValidEmail email) then (errorResponse 400 "invalid email", st)
  else
    match Store.GetUserByEmail st email with
    | .error (.db .noRows) =>
        (⟨200, .obj [("message",
            .str "if the account exists, a reset token was generated")]⟩, st)
    | .error _ => (errorResponse 500 "failed to create reset token", st)
    | .ok user =>
      match tokGen with
      | none => (errorResponse 500 "failed to create reset token", st)
      | some token =>
        let expiresAt := now + resetTTL
        let st' := Store.CreatePasswordReset st user.id token expiresAt
        (⟨200, .obj [("expires_at", .num expiresAt),
                     ("message", .str "use token to reset password"),
                     ("token", .str token)]⟩, st')

/-- `handleResetPassword` after JSON decoding. -/
def Handler.handleResetCore (hashF : String → Option String) (f : TxFaults)
    (input : ResetPasswordRequest) (st : DBState) (now : Nat) : HttpResponse × DBState :=
  let token := trimSpace input.token
  if token == "" then (errorResponse 400 "token is required", st)
  else if goLen input.newPassword < minPasswordLength then
    (errorResponse 400 "password too short", st)
  else
    match hashF input.newPassword with
    | none => (errorResponse 500 "failed to hash password", st)
    | some hash =>
      match Store.ConsumePasswordReset f st now token hash with
      | (.error (.db .noRows), st') => (errorResponse 400 "invalid or expired token", st')
      | (.error _, st') => (errorResponse 500 "failed to reset password", st')
      | (.ok _, st') => (⟨200, .obj [("message", .str "password reset successfully")]⟩, st')

/-- `authenticate`: parse the bearer header, then resolve the session
token.  Every failure collapses to the one `errUnauthorized` the profile
handlers turn into a 401. -/
def Handler.authenticate (st : DBState) (now : Nat) (authHeader : String) :
    Except Unit User :=
  if authHeader == "" || !(goHasPrefix authHeader "Bearer ") then .error ()
  else
    let token := trimSpace (goTrimPrefix authHeader "Bearer ")
    if token == "" then .error ()
    else
      match Store.GetUserBySessionToken st now token with
      | .error _ => .error ()
      | .ok u => .ok u

/-- `handleGetProfile`. -/
def Handler.handleGetProfile (st : DBState) (now : Nat) (authHeader : String) :
    HttpResponse × DBState :=
  match Handler.authenticate st now authHeader with
  | .error _ => (errorResponse 401 "unauthorized", st)
  | .ok user => (⟨200, user.toJson⟩, st)

/-- The store call at the end of `handleUpdateProfile`. -/
def Handler.updateStoreStep (uid : Nat) (input : UpdateProfileRequest)
    (st : DBState) (now : Nat) : HttpResponse × DBState :=
  match Store.UpdateUser st now uid input.email input.name with
  | .error .emailExists => (errorResponse 409 "email already exists", st)
  | .error (.db .noRows) => (errorResponse 404 "user not found", st)
  | .error _ => (errorResponse 500 "failed to update user", st)
  | .ok (u, st') => (⟨200, u.toJson⟩, st')

/-- The name-normalization step of `handleUpdateProfile`. -/
def Handler.updateNameStep (uid : Nat) (input : UpdateProfileRequest)
    (st : DBState) (now : Nat) : HttpResponse × DBState :=
  match input.name with
  | some n =>
    let v := trimSpace n
    if v == "" then (errorResponse 400 "name cannot be empty", st)
    else Handler.updateStoreStep uid { input with name := some v } st now
  | none => Handler.updateStoreStep uid input st now

/-- `handleUpdateProfile` after authentication and JSON decoding:
presence check, then per-field validation and normalization, then the
store update. -/
def Handler.handleUpdateProfileCore (uid : Nat) (input : UpdateProfileRequest)
    (st : DBState) (now : Nat) : HttpResponse × DBState :=
  if input.email.isNone && input.name.isNone then
    (errorResponse 400 "provide email or name", st)
  else
    match input.email with
    | some e =>
      let v := normalizeEmail e
      if !(isValidEmail v) then (errorResponse 400 "invalid email", st)
      else Handler.updateNameStep uid { input with email := some v } st now
    | none => Handler.updateNameStep uid input st now

/-! ### Strict JSON request decoding (`decodeJSON`)

The request body is modelled as the sequence of top-level JSON values a
`json.Decoder` reads from it (`.malformed` when the bytes are not valid
JSON at the point the decoder reaches).  `decodeJSON` decodes one value
into the destination struct with `DisallowUnknownFields`, then requires
the very next read to hit `io.EOF`. -/

inductive BodyStream where
  | malformed
  | values (vs : List JsonVal)

/-- Go keeps the last occurrence of a duplicated key. -/
def lookupLast (fields : List (String × JsonVal)) (k : String) : Option JsonVal :=
  ((fields.filter (fun p => p.1 == k)).map Prod.snd).getLast?

/-- `Handler.decodeJSON` for a destination struct whose JSON field names
are `allowed`: exactly one top-level value, which must populate the
struct (an object with no unknown fields, or `null`, which leaves the
struct zero-valued); anything else is an error with a message. -/
def decodeJSON (allowed : List String) : BodyStream → Except String (List (String × JsonVal))
  | .malformed => .error "invalid JSON"
  | .values [] => .error "EOF"
  | .values (v :: rest) =>
    match v with
    | .obj fields =>
      match fields.find? (fun p => !(allowed.contains p.1)) with
      | some p => .error ("json: unknown field " ++ p.1)
      | none =>
        if rest.isEmpty then .ok fields
        else .error "body must contain a single JSON object"
    | .null =>
      if rest.isEmpty then .ok []
      else .error "body must contain a single JSON object"
    | _ => .error "json: cannot unmarshal value into struct"

/-- Decoding a JSON value into a Go `string` field: absent or `null`
leaves the zero value `""`; a non-string value is a type error. -/
def getStringField (fields : List (String × JsonVal)) (k : String) :
    Except String String :=
  match lookupLast fields k with
  | none => .ok ""
  | some (.str s) => .ok s
  | some .null => .ok ""
  | some _ => .error ("json: cannot unmarshal value into field " ++ k)

/-- Decoding into a Go `*string` field: absent or `null` is `nil`. -/
def getOptStringField (fields : List (String × JsonVal)) (k : String) :
    Except String (Option String) :=
  match lookupLast fields k with
  | none => .ok none
  | some (.str s) => .ok (some s)
  | some .null => .ok none
  | some _ => .error ("json: cannot unmarshal value into field " ++ k)

def registerFields : List String := ["email", "password", "name"]

def loginFields : List String := ["email", "password"]

def forgotFields : List String := ["email"]

def resetFields : List String := ["token", "new_password"]

def updateProfileFields : List String := ["email", "name"]

def parseRegisterRequest (b : BodyStream) : Except String RegisterRequest := do
  let fields ← decodeJSON registerFields b
  let email ← getStringField fields "email"
  let password ← getStringField fields "password"
  let name ← getStringField fields "name"
  .ok ⟨email, password, name⟩

def parseLoginRequest (b : BodyStream) : Except String LoginRequest := do
  let fields ← decodeJSON loginFields b
  let email ← getStringField fields "email"
  let password ← getStringField fields "password"
  .ok ⟨email, password⟩

def parseForgotRequest (b : BodyStream) : Except String ForgotPasswordRequest := do
  let fields ← decodeJSON forgotFields b
  let email ← getStringField fields "email"
  .ok ⟨email⟩

def parseResetRequest (b : BodyStream) : Except String ResetPasswordRequest := do
  let fields ← decodeJSON resetFields b
  let token ← getStringField fields "token"
  let newPassword ← getStringField fields "new_password"
  .ok ⟨token, newPassword⟩

def parseUpdateProfileRequest (b : BodyStream) : Except String UpdateProfileRequest := do
  let fields ← decodeJSON updateProfileFields b
  let email ← getOptStringField fields "email"
  let name ← getOptStringField fields "name"
  .ok ⟨email, name⟩

/-! ### Full handlers over a raw body -/

/-- `handleRegister`: decode, then the core; a decode error is a 400
carrying `err.Error()`. -/
def Handler.handleRegister (hashF : String → Option String) (body : BodyStream)
    (st : DBState) (now : Nat) : HttpResponse × DBState :=
  match parseRegisterRequest body with
  | .error e => (errorResponse 400 e, st)
  | .ok input => Handler.handleRegisterCore hashF input st now

/-- `handleLogin` over a raw body. -/
def Handler.handleLogin (verify : String → String → Bool) (tokGen : Option String)
    (sessionTTL : Nat) (body : BodyStream) (st : DBState) (now : Nat) :
    HttpResponse × DBState :=
  match parseLoginRequest body with
  | .error e => (errorResponse 400 e, st)
  | .ok input => Handler.handleLoginCore verify tokGen sessionTTL input st now

/-- `handleForgotPassword` over a raw body. -/
def Handler.handleForgotPassword (tokGen : Option String) (resetTTL : Nat)
    (body : BodyStream) (st : DBState) (now : Nat) : HttpResponse × DBState :=
  match parseForgotRequest body with
  | .error e => (errorResponse 400 e, st)
  | .ok input => Handler.handleForgotCore tokGen resetTTL input st now

/-- `handleResetPassword` over a raw body. -/
def Handler.handleResetPassword (hashF : String → Option String) (f : TxFaults)
    (body : BodyStream) (st : DBState) (now : Nat) : HttpResponse × DBState :=
  match parseResetRequest body with
  | .error e => (errorResponse 400 e, st)
  | .ok input => Handler.handleResetCore hashF f input st now

/-- `handleUpdateProfile` over a raw body: authenticate first, then
decode, then the core. -/
def Handler.handleUpdateProfile (body : BodyStream) (st : DBState) (now : Nat)
    (authHeader : String) : HttpResponse × DBState :=
  match Handler.authenticate st now authHeader with
  | .error _ => (errorResponse 401 "unauthorized", st)
  | .ok currentUser =>
    match parseUpdateProfileRequest body with
    | .error e => (errorResponse 400 e, st)
    | .ok input => Handler.handleUpdateProfileCore currentUser.id input st now

/-! ### Decidability and concrete fixtures -/

/-- Decidable equality on `Except`, used to evaluate store results at
concrete inputs. -/
instance exceptDecEq {ε α : Type} [DecidableEq ε] [DecidableEq α] :
    DecidableEq (Except ε α)
  | .ok a, .ok b =>
    if h : a = b then .isTrue (by rw [h]) else .isFalse (by simp [h])
  | .error e, .error e' =>
    if h : e = e' then .isTrue (by rw [h]) else .isFalse (by simp [h])
  | .ok _, .error _ => .isFalse (by simp)
  | .error _, .ok _ => .isFalse (by simp)

/-- A registered user, as stored after `register("a@b.com", ..., "Al")`. -/
def uA : User := ⟨1, "a@b.com", "Al", "oldhash", 0, 0⟩

/-- A database with user `uA`, one live session row and one live
password-reset row (both expiring at time 100). -/
def stEx : DBState := ⟨[uA], [⟨1, "stok", 100⟩], [⟨1, "rtok", 100⟩], 2⟩

/-! ### Shared facts about `ConsumePasswordReset` -/

/-- A missing or expired token row makes the consume transaction fail
with `sql.ErrNoRows` and leave the state untouched. -/
lemma consume_noRows_of_find_none (f : TxFaults) (st : DBState) (now : Nat)
    (token newHash : String) (hb : f.beginFail = false)
    (hf : st.resets.find? (fun r => r.token == token && now < r.expiresAt) = none) :
    Store.ConsumePasswordReset f st now token newHash = (.error (.db .noRows), st) := by
  simp [Store.ConsumePasswordReset, hb, hf]

/-- Every error outcome of the consume transaction returns the original
state (the deferred rollback). -/
lemma consume_error_rollback (f : TxFaults) (st : DBState) (now : Nat)
    (token newHash : String) (e : StoreErr) (st' : DBState)
    (h : Store.ConsumePasswordReset f st now token newHash = (.error e, st')) :
    st' = st := by
  unfold Store.ConsumePasswordReset at h
  repeat' split at h
  all_goals simp_all

/-- A successful consume deletes the token row, rewrites the owning
user's password hash, and changes nothing else. -/
lemma consume_ok_inv (f : TxFaults) (st : DBState) (now : Nat)
    (token newHash : String) (u : User) (st' : DBState)
    (h : Store.ConsumePasswordReset f st now token newHash = (.ok u, st')) :
    u.passwordHash = newHash ∧
    (∀ r ∈ st'.resets, ¬ r.token = token) ∧
    (∀ v ∈ st'.users, v.id = u.id → v.passwordHash = newHash) ∧
    ∃ r0, st.resets.find? (fun r => r.token == token && now < r.expiresAt) = some r0 ∧
      u.id = r0.userId ∧
      st'.users = st.users.map (fun v =>
        if v.id == r0.userId then { v with passwordHash := newHash, updatedAt := now }
        else v) ∧
      st'.resets = st.resets.filter (fun q => q.token != token) ∧
      st'.sessions = st.sessions ∧ st'.nextUserId = st.nextUserId := by
  unfold Store.ConsumePasswordReset at h
  split at h
  · exact absurd h (by simp)
  · split at h
    · exact absurd h (by simp)
    · rename_i r0 hfind
      split at h
      · exact absurd h (by simp)
      · split at h
        · exact absurd h (by simp)
        · rename_i u0 hfu
          split at h
          · exact absurd h (by simp)
          · split at h
            · exact absurd h (by simp)
            · rw [Prod.mk.injEq] at h
              obtain ⟨h1, h2⟩ := h
              injection h1 with h1
              subst h1
              subst h2
              have hu0 : (u0.id == r0.userId) = true := by
                simpa using List.find?_some hfu
              refine ⟨rfl, ?_, ?_, r0, hfind, by simpa using hu0, rfl, rfl, rfl, rfl⟩
              · intro r hr
                have := (List.mem_filter.mp hr).2
                simpa using this
              · intro v hv hid
                obtain ⟨v0, hv0, rfl⟩ := List.mem_map.mp hv
                by_cases hcase : (v0.id == r0.userId) = true
                · simp [hcase]
                · exfalso
                  apply hcase
                  simp only [hcase, if_false, Bool.false_eq_true] at hid
                  have hid' : v0.id = u0.id := by simpa using hid
                  simp only [beq_iff_eq] at hu0 ⊢
                  rw [hid', hu0]

/-! ### C1: atomicity of `ConsumePasswordReset` -/

/-- C1.  Every call to `ConsumePasswordReset(token, newHash)` is
all-or-nothing: if no reset row with that token and `expires_at > now`
exists, it fails with `sql.ErrNoRows` (NotFound) and the state is
untouched; whenever it fails — for any injected step failure — the
transaction rolls back and the state is exactly the original; when it
succeeds, the token row is deleted and the owning user's password hash
equals `newHash`, all in the same state transition, so no partial state
is ever observable. -/
theorem consumePasswordReset_atomic
    (f : TxFaults) (st : DBState) (now : Nat) (token newHash : String) :
    (f.beginFail = false →
      st.resets.find? (fun r => r.token == token && now < r.expiresAt) = none →
      Store.ConsumePasswordReset f st now token newHash = (.error (.db .noRows), st)) ∧
    (∀ e st', Store.ConsumePasswordReset f st now token newHash = (.error e, st') →
      st' = st) ∧
    (∀ u st', Store.ConsumePasswordReset f st now token newHash = (.ok u, st') →
      u.passwordHash = newHash ∧
      (∀ r ∈ st'.resets, ¬ r.token = token) ∧
      (∀ v ∈ st'.users, v.id = u.id → v.passwordHash = newHash) ∧
      ∃ r0, st.resets.find? (fun r => r.token == token && now < r.expiresAt) = some r0 ∧
        u.id = r0.userId ∧
        st'.users = st.users.map (fun v =>
          if v.id == r0.userId then { v with passwordHash := newHash, updatedAt := now }
          else v) ∧
        st'.resets = st.resets.filter (fun q => q.token != token) ∧
        st'.sessions = st.sessions ∧ st'.nextUserId = st.nextUserId) :=
  ⟨consume_noRows_of_find_none f st now token newHash,
   consume_error_rollback f st now token newHash,
   consume_ok_inv f st now token newHash⟩

/-- Witness for C1: at time 200 the only reset row (expiring at 100) is
expired, so the fault-free consume fails with `NotFound` and returns the
state unchanged. -/
theorem consumePasswordReset_atomic_witness :
    Store.ConsumePasswordReset TxFaults.noFaults stEx 200 "rtok" "newhash"
      = (.error (.db .noRows), stEx) :=
  (consumePasswordReset_atomic TxFaults.noFaults stEx 200 "rtok" "newhash").1
    (by decide) (by decide)

/-! ### C2: concurrent consumption serializes -/

/-- C2.  Two consumptions of the same token, serialized by the
`FOR UPDATE` row lock into one transaction order: if the first commit
succeeds, the later transaction observes `sql.ErrNoRows` (NotFound) and
changes nothing, and every user row bearing the winner's id carries
exactly the first call's hash — one update, not two. -/
theorem consumePasswordReset_serializes
    (st st₁ : DBState) (now₁ now₂ : Nat) (token h₁ h₂ : String) (u : User)
    (hfirst : Store.ConsumePasswordReset TxFaults.noFaults st now₁ token h₁
      = (.ok u, st₁)) :
    Store.ConsumePasswordReset TxFaults.noFaults st₁ now₂ token h₂
      = (.error (.db .noRows), st₁) ∧
    u.passwordHash = h₁ ∧
    (∀ v ∈ st₁.users, v.id = u.id → v.passwordHash = h₁) := by
  obtain ⟨hu, hres, husers, -⟩ := consume_ok_inv _ _ _ _ _ _ _ hfirst
  refine ⟨?_, hu, husers⟩
  apply consume_noRows_of_find_none _ _ _ _ _ rfl
  rw [List.find?_eq_none]
  intro r hr
  have := hres r hr
  simp [this]

/-- Witness for C2: consuming `rtok` in `stEx`, then consuming it again,
makes the second call fail with `NotFound`. -/
theorem consumePasswordReset_serializes_witness :
    (Store.ConsumePasswordReset TxFaults.noFaults
        (Store.ConsumePasswordReset TxFaults.noFaults stEx 5 "rtok" "h1").2
        6 "rtok" "h2").1 = .error (.db .noRows) :=
  congrArg Prod.fst
    ((consumePasswordReset_serializes stEx
        (Store.ConsumePasswordReset TxFaults.noFaults stEx 5 "rtok" "h1").2
        5 6 "rtok" "h1" "h2" ⟨1, "a@b.com", "Al", "h1", 0, 5⟩ (by decide)).1)

/-! ### Shared facts about session resolution -/

/-- `isPrefixOf` holds of a list against itself followed by anything. -/
lemma isPrefixOf_append (l t : List Char) : l.isPrefixOf (l ++ t) = true := by
  induction l with
  | nil => simp [List.isPrefixOf]
  | cons c cs ih => simp [List.isPrefixOf, ih]

/-- A string with a nonempty left part is nonempty. -/
lemma append_ne_empty_of_left (a b : String) (ha : ¬ a.data = []) :
    ¬ (a ++ b) = "" := by
  intro h
  apply ha
  have hd := congrArg String.data h
  simp only [String.data_append] at hd
  exact (List.append_eq_nil.mp hd).1

/-- When no session row matches the token unexpired, the lookup fails
with the single `sql.ErrNoRows` error — the same for an expired token
and for one that never existed. -/
lemma sessionToken_noRows (st : DBState) (now : Nat) (token : String)
    (hno : ¬ ∃ s ∈ st.sessions, s.token = token ∧ now < s.expiresAt) :
    Store.GetUserBySessionToken st now token = .error (.db .noRows) := by
  have hf : st.sessions.find? (fun s => s.token == token && now < s.expiresAt) = none := by
    rw [List.find?_eq_none]
    intro s hs
    simp only [Bool.and_eq_true, beq_iff_eq, decide_eq_true_eq, not_and]
    intro h1 h2
    exact hno ⟨s, hs, h1, h2⟩
  simp [Store.GetUserBySessionToken, hf]

/-! ### C3: session resolution and its single NotFound error -/

/-- C3.  Under the schema's foreign key (every session row's user id
names a stored user), `GetUserBySessionToken` succeeds exactly when a
session row with that exact token exists with `expires_at > now`, and
the user it returns is that row's owner; when the token is absent or
expired it returns one and the same `sql.ErrNoRows` error, and
`authenticate` maps that one error to its one `errUnauthorized`, so an
expired token is indistinguishable from an unknown one. -/
theorem getUserBySessionToken_spec
    (st : DBState) (now : Nat) (token : String)
    (hfk : ∀ s ∈ st.sessions, ∃ u ∈ st.users, u.id = s.userId) :
    ((∃ s ∈ st.sessions, s.token = token ∧ now < s.expiresAt) ↔
      ∃ u, Store.GetUserBySessionToken st now token = .ok u) ∧
    ((¬ ∃ s ∈ st.sessions, s.token = token ∧ now < s.expiresAt) →
      Store.GetUserBySessionToken st now token = .error (.db .noRows)) ∧
    (∀ u, Store.GetUserBySessionToken st now token = .ok u →
      ∃ s ∈ st.sessions, s.token = token ∧ now < s.expiresAt ∧
        u ∈ st.users ∧ u.id = s.userId) ∧
    ((¬ ∃ s ∈ st.sessions, s.token = token ∧ now < s.expiresAt) →
      trimSpace token = token → ¬ token = "" →
      Handler.authenticate st now ("Bearer " ++ token) = .error ()) := by
  refine ⟨⟨?_, ?_⟩, sessionToken_noRows st now token, ?_, ?_⟩
  · rintro ⟨s, hs, hst, hexp⟩
    have h1 : (st.sessions.find? (fun s => s.token == token && now < s.expiresAt)).isSome := by
      rw [List.find?_isSome]
      exact ⟨s, hs, by simp [hst, hexp]⟩
    obtain ⟨s0, hs0⟩ := Option.isSome_iff_exists.mp h1
    obtain ⟨u, hu, huid⟩ := hfk s0 (List.mem_of_find?_eq_some hs0)
    have h2 : (st.users.find? (fun v => v.id == s0.userId)).isSome := by
      rw [List.find?_isSome]
      exact ⟨u, hu, by simp [huid]⟩
    obtain ⟨u0, hu0⟩ := Option.isSome_iff_exists.mp h2
    exact ⟨u0, by simp [Store.GetUserBySessionToken, hs0, hu0]⟩
  · rintro ⟨u, hu⟩
    unfold Store.GetUserBySessionToken at hu
    split at hu
    · exact absurd hu (by simp)
    · rename_i s0 hs0
      have hp := List.find?_some hs0
      simp only [Bool.and_eq_true, beq_iff_eq, decide_eq_true_eq] at hp
      exact ⟨s0, List.mem_of_find?_eq_some hs0, hp.1, hp.2⟩
  · intro u hu
    unfold Store.GetUserBySessionToken at hu
    split at hu
    · exact absurd hu (by simp)
    · rename_i s0 hs0
      split at hu
      · exact absurd hu (by simp)
      · rename_i u0 hu0
        injection hu with hu
        subst hu
        have hsp := List.find?_some hs0
        simp only [Bool.and_eq_true, beq_iff_eq, decide_eq_true_eq] at hsp
        have hup := List.find?_some hu0
        simp only [beq_iff_eq] at hup
        exact ⟨s0, List.mem_of_find?_eq_some hs0, hsp.1, hsp.2,
               List.mem_of_find?_eq_some hu0, hup⟩
  · intro hno htrim hne
    have herr := sessionToken_noRows st now token hno
    have hpre : goHasPrefix ("Bearer " ++ token) "Bearer " = true := by
      simp only [goHasPrefix, String.data_append]
      exact isPrefixOf_append _ _
    have hempty : (("Bearer " ++ token : String) == "") = false := by
      rw [beq_eq_false_iff_ne]
      exact append_ne_empty_of_left _ _ (by decide)
    have hdrop : goTrimPrefix ("Bearer " ++ token) "Bearer " = token := by
      simp only [goTrimPrefix, hpre, if_true, String.data_append]
      rw [List.drop_left]
    unfold Handler.authenticate
    rw [hdrop, htrim]
    simp [hempty, hpre, herr, hne]

/-- Witness for C3: in `stEx` the token `"nosuch"` never existed and
`"stok"` is expired at time 200; both lookups fail with the same
`sql.ErrNoRows`. -/
theorem getUserBySessionToken_spec_witness :
    Store.GetUserBySessionToken stEx 200 "stok" = .error (.db .noRows) ∧
    Store.GetUserBySessionToken stEx 200 "nosuch" = .error (.db .noRows) :=
  ⟨(getUserBySessionToken_spec stEx 200 "stok" (by decide)).2.1 (by decide),
   (getUserBySessionToken_spec stEx 200 "nosuch" (by decide)).2.1 (by decide)⟩

/-! ### C4: login masks user existence -/

/-- C4.  For a well-formed email, login with an unknown email and login
with a known email but a password the verifier rejects produce the very
same external response — status 401 with body
`{"error": "invalid credentials"}` — and leave the state unchanged. -/
theorem login_invalid_credentials_indistinguishable
    (verify : String → String → Bool) (tokGen : Option String) (ttl : Nat)
    (email pw : String) (st : DBState) (now : Nat)
    (hvalid : isValidEmail (normalizeEmail email) = true) :
    (Store.GetUserByEmail st (normalizeEmail email) = .error (.db .noRows) →
      Handler.handleLoginCore verify tokGen ttl ⟨email, pw⟩ st now
        = (errorResponse 401 "invalid credentials", st)) ∧
    (∀ u, Store.GetUserByEmail st (normalizeEmail email) = .ok u →
      verify u.passwordHash pw = false →
      Handler.handleLoginCore verify tokGen ttl ⟨email, pw⟩ st now
        = (errorResponse 401 "invalid credentials", st)) := by
  constructor
  · intro hmiss
    simp [Handler.handleLoginCore, hvalid, hmiss]
  · intro u hok hverify
    simp [Handler.handleLoginCore, hvalid, hok, hverify]

/-- Witness for C4: in `stEx`, logging in as the unregistered
`c@d.com` and as the registered `a@b.com` with a rejected password give
the identical 401 `invalid credentials` response. -/
theorem login_invalid_credentials_indistinguishable_witness :
    Handler.handleLoginCore (fun _ _ => false) (some "t") 10 ⟨"c@d.com", "pw"⟩ stEx 5
      = (errorResponse 401 "invalid credentials", stEx) ∧
    Handler.handleLoginCore (fun _ _ => false) (some "t") 10 ⟨"a@b.com", "pw"⟩ stEx 5
      = (errorResponse 401 "invalid credentials", stEx) :=
  ⟨(login_invalid_credentials_indistinguishable (fun _ _ => false) (some "t") 10
      "c@d.com" "pw" stEx 5 (by decide)).1 (by decide),
   (login_invalid_credentials_indistinguishable (fun _ _ => false) (some "t") 10
      "a@b.com" "pw" stEx 5 (by decide)).2 uA (by decide) rfl⟩

/-! ### C5: forgot-password masking (corrected) -/

/-- Counterexample to C5 as stated: for the unknown email `c@d.com` the
response body is `{"message": "if the account exists, a reset token was
generated"}`, while for the registered `a@b.com` it carries the token —
`{"expires_at": ..., "message": "use token to reset password",
"token": ...}` — so the two responses are not the same message. -/
theorem forgotPassword_responses_differ :
    ¬ ((Handler.handleForgotCore (some "rtok2") 30 ⟨"c@d.com"⟩ stEx 5).1.body
        = (Handler.handleForgotCore (some "rtok2") 30 ⟨"a@b.com"⟩ stEx 5).1.body) := by
  intro h
  exact absurd (congrArg topKeys h) (by decide)

/-- C5 amended.  For a well-formed email with no matching user, the
forgot-password response is success-shaped with the same HTTP 200
status as the token-issuing path, carrying the generic message, and the
state is unchanged — in particular no reset-token record is created;
the body, however, is not identical to the known-email response, which
additionally returns the token inline. -/
theorem forgotPassword_unknown_email_masked
    (tokGen : Option String) (ttl : Nat) (email : String) (st : DBState) (now : Nat)
    (hvalid : isValidEmail (normalizeEmail email) = true) :
    (Store.GetUserByEmail st (normalizeEmail email) = .error (.db .noRows) →
      Handler.handleForgotCore tokGen ttl ⟨email⟩ st now
        = (⟨200, .obj [("message",
            .str "if the account exists, a reset token was generated")]⟩, st)) ∧
    (∀ u tok, Store.GetUserByEmail st (normalizeEmail email) = .ok u →
      tokGen = some tok →
      (Handler.handleForgotCore tokGen ttl ⟨email⟩ st now).1.status = 200) := by
  constructor
  · intro hmiss
    simp [Handler.handleForgotCore, hvalid, hmiss]
  · intro u tok hok htok
    simp [Handler.handleForgotCore, hvalid, hok, htok]

/-- Witness for C5 (amended): the unknown email `c@d.com` gets the
generic 200 message and `stEx` is unchanged. -/
theorem forgotPassword_unknown_email_masked_witness :
    Handler.handleForgotCore (some "rtok2") 30 ⟨"c@d.com"⟩ stEx 5
      = (⟨200, .obj [("message",
          .str "if the account exists, a reset token was generated")]⟩, stEx) :=
  (forgotPassword_unknown_email_masked (some "rtok2") 30 "c@d.com" stEx 5
    (by decide)).1 (by decide)

/-! ### C6: email uniqueness surfaces as a distinct conflict -/

/-- Registering an email some stored user already has makes the insert
fail as `ErrEmailExists` after boundary translation. -/
lemma createUser_emailExists (st : DBState) (now : Nat) (email name hash : String)
    (hdup : st.users.any (fun u => u.email == email) = true) :
    Store.CreateUser st now email name hash = .error .emailExists := by
  simp [Store.CreateUser, rawInsertUser, hdup, isUniqueViolation]

/-- C6.  When the normalized email of a registration equals a stored
user's email, the backend insert raises the unique-violation code 23505,
`isUniqueViolation` recognizes it, the store boundary translates it to
the distinct `ErrEmailExists`, and the endpoint answers 409 Conflict
with `{"error": "email already exists"}` — a response distinguishable
from the generic 500 internal failure. -/
theorem register_duplicate_email_conflict
    (st : DBState) (now : Nat) (email name hash : String)
    (hdup : st.users.any (fun u => u.email == email) = true) :
    rawInsertUser st now email name hash = .error (.pg uniqueViolationCode) ∧
    isUniqueViolation (.pg uniqueViolationCode) = true ∧
    Store.CreateUser st now email name hash = .error .emailExists ∧
    (∀ (hashF : String → Option String) (input : RegisterRequest),
      normalizeEmail input.email = email →
      ¬ trimSpace input.name = "" →
      isValidEmail email = true →
      minPasswordLength ≤ goLen input.password →
      hashF input.password = some hash →
      Handler.handleRegisterCore hashF input st now
        = (errorResponse 409 "email already exists", st) ∧
      ¬ errorResponse 409 "email already exists"
          = errorResponse 500 "failed to create user") := by
  refine ⟨by simp [rawInsertUser, hdup], rfl,
          createUser_emailExists st now email name hash hdup, ?_⟩
  intro hashF input hnorm hname hvalid hlen hhash
  constructor
  · have hdup' := createUser_emailExists st now email (trimSpace input.name) hash hdup
    have hname' : (trimSpace input.name == "") = false := by
      rw [beq_eq_false_iff_ne]
      exact hname
    have hlen' : ¬ goLen input.password < minPasswordLength := Nat.not_lt.mpr hlen
    simp [Handler.handleRegisterCore, hnorm, hvalid, hname', hlen', hhash, hdup']
  · intro h
    exact absurd (congrArg HttpResponse.status h) (by decide)

/-- Witness for C6: re-registering `a@b.com` (already `uA`'s email in
`stEx`) yields the 409 conflict. -/
theorem register_duplicate_email_conflict_witness :
    Handler.handleRegisterCore (fun _ => some "bhash") ⟨"A@B.com ", "longpass", "Bob"⟩ stEx 5
      = (errorResponse 409 "email already exists", stEx) :=
  ((register_duplicate_email_conflict stEx 5 "a@b.com" "Bob" "bhash" (by decide)).2.2.2
    (fun _ => some "bhash") ⟨"A@B.com ", "longpass", "Bob"⟩
    (by decide) (by decide) (by decide) (by decide) rfl).1

/-! ### C7: register normalization and validation -/

/-- A successful `CreateUser` appends exactly one user row carrying the
email and name it was given. -/
lemma createUser_ok_inv (st : DBState) (now : Nat) (email name hash : String)
    (u : User) (st' : DBState)
    (h : Store.CreateUser st now email name hash = .ok (u, st')) :
    u.email = email ∧ u.name = name ∧ st'.users = st.users ++ [u] := by
  unfold Store.CreateUser at h
  cases hraw : rawInsertUser st now email name hash with
  | error e =>
    rw [hraw] at h
    have h' : (if isUniqueViolation e then (.error .emailExists : Except StoreErr (User × DBState))
        else .error (.db e)) = .ok (u, st') := h
    cases hq : isUniqueViolation e <;> simp [hq] at h'
  | ok r =>
    rw [hraw] at h
    injection h with h
    subst h
    unfold rawInsertUser at hraw
    split at hraw
    · exact absurd hraw (by simp)
    · injection hraw with hraw
      rw [Prod.mk.injEq] at hraw
      obtain ⟨h1, h2⟩ := hraw
      subst h1
      subst h2
      exact ⟨rfl, rfl, rfl⟩

/-- C7.  Registration normalizes the email by trimming and
lower-casing before any store interaction (so `A@B.com` and `a@b.com `
collide on the same stored form), rejects with 400 — creating no user —
exactly when the normalized email is empty or lacks `@`, the trimmed
name is empty, or the password is shorter than 8 bytes, and on success
stores a user whose email is the normalized form and whose name is the
trimmed form. -/
theorem register_validation_spec
    (hashF : String → Option String) (input : RegisterRequest)
    (st : DBState) (now : Nat) :
    (normalizeEmail "A@B.com" = "a@b.com" ∧ normalizeEmail "a@b.com " = "a@b.com") ∧
    (((Handler.handleRegisterCore hashF input st now).1.status = 400) ↔
      (isValidEmail (normalizeEmail input.email) = false ∨
       trimSpace input.name = "" ∨
       goLen input.password < minPasswordLength)) ∧
    (((Handler.handleRegisterCore hashF input st now).1.status = 400) →
      (Handler.handleRegisterCore hashF input st now).2 = st) ∧
    (((Handler.handleRegisterCore hashF input st now).1.status = 201) →
      ∃ u, (Handler.handleRegisterCore hashF input st now).2.users = st.users ++ [u] ∧
        u.email = normalizeEmail input.email ∧ u.name = trimSpace input.name) := by
  have hrej : (isValidEmail (normalizeEmail input.email) = false ∨
      trimSpace input.name = "" ∨
      goLen input.password < minPasswordLength) →
      ∃ m, Handler.handleRegisterCore hashF input st now = (errorResponse 400 m, st) := by
    intro hdisj
    by_cases hv : isValidEmail (normalizeEmail input.email) = true
    · by_cases hn : trimSpace input.name = ""
      · have hn' : (trimSpace input.name == "") = true := by simp [hn]
        exact ⟨"name is required", by simp [Handler.handleRegisterCore, hv, hn']⟩
      · have hn' : (trimSpace input.name == "") = false := beq_eq_false_iff_ne.mpr hn
        have hl : goLen input.password < minPasswordLength := by
          rcases hdisj with h | h | h
          · rw [hv] at h; exact absurd h (by simp)
          · exact absurd h hn
          · exact h
        exact ⟨"password too short",
          by simp [Handler.handleRegisterCore, hv, hn', hl]⟩
    · have hv' : isValidEmail (normalizeEmail input.email) = false := by
        simpa using hv
      exact ⟨"invalid email", by simp [Handler.handleRegisterCore, hv']⟩
  have hchar : isValidEmail (normalizeEmail input.email) = true →
      ¬ trimSpace input.name = "" → ¬ goLen input.password < minPasswordLength →
      (Handler.handleRegisterCore hashF input st now).1.status = 500 ∨
      (Handler.handleRegisterCore hashF input st now).1.status = 409 ∨
      ((Handler.handleRegisterCore hashF input st now).1.status = 201 ∧
        ∃ u, (Handler.handleRegisterCore hashF input st now).2.users = st.users ++ [u] ∧
          u.email = normalizeEmail input.email ∧ u.name = trimSpace input.name) := by
    intro hv hn hl
    have hn' : (trimSpace input.name == "") = false := beq_eq_false_iff_ne.mpr hn
    cases hhash : hashF input.password with
    | none =>
      left
      have hred : Handler.handleRegisterCore hashF input st now
          = (errorResponse 500 "failed to hash password", st) := by
        simp [Handler.handleRegisterCore, hv, hn', hl, hhash]
      rw [hred]
      rfl
    | some hash =>
      cases hcu : Store.CreateUser st now (normalizeEmail input.email)
          (trimSpace input.name) hash with
      | error e =>
        cases e with
        | emailExists =>
          right; left
          have hred : Handler.handleRegisterCore hashF input st now
              = (errorResponse 409 "email already exists", st) := by
            simp [Handler.handleRegisterCore, hv, hn', hl, hhash, hcu]
          rw [hred]
          rfl
        | db e' =>
          left
          have hred : Handler.handleRegisterCore hashF input st now
              = (errorResponse 500 "failed to create user", st) := by
            simp [Handler.handleRegisterCore, hv, hn', hl, hhash, hcu]
          rw [hred]
          rfl
      | ok r =>
        right; right
        obtain ⟨u, st'⟩ := r
        obtain ⟨he, hna, hus⟩ := createUser_ok_inv st now _ _ _ _ _ hcu
        have hred : Handler.handleRegisterCore hashF input st now = (⟨201, u.toJson⟩, st') := by
          simp [Handler.handleRegisterCore, hv, hn', hl, hhash, hcu]
        rw [hred]
        exact ⟨rfl, u, hus, he, hna⟩
  have hiff : ((Handler.handleRegisterCore hashF input st now).1.status = 400) ↔
      (isValidEmail (normalizeEmail input.email) = false ∨
       trimSpace input.name = "" ∨
       goLen input.password < minPasswordLength) := by
    constructor
    · intro h400
      by_contra hcon
      push_neg at hcon
      obtain ⟨h1, h2, h3⟩ := hcon
      have hv : isValidEmail (normalizeEmail input.email) = true := by
        cases hb : isValidEmail (normalizeEmail input.email)
        · exact absurd hb h1
        · rfl
      rcases hchar hv h2 (Nat.not_lt.mpr h3) with h | h | ⟨h, -⟩ <;> omega
    · intro hdisj
      obtain ⟨m, hm⟩ := hrej hdisj
      rw [hm]
      rfl
  refine ⟨by decide, hiff, ?_, ?_⟩
  · intro h400
    obtain ⟨m, hm⟩ := hrej (hiff.mp h400)
    rw [hm]
  · intro h201
    have hnd : ¬ (isValidEmail (normalizeEmail input.email) = false ∨
        trimSpace input.name = "" ∨
        goLen input.password < minPasswordLength) := by
      intro hdisj
      obtain ⟨m, hm⟩ := hrej hdisj
      rw [hm] at h201
      simp [errorResponse] at h201
    push_neg at hnd
    obtain ⟨h1, h2, h3⟩ := hnd
    have hv : isValidEmail (normalizeEmail input.email) = true := by
      cases hb : isValidEmail (normalizeEmail input.email)
      · exact absurd hb h1
      · rfl
    rcases hchar hv h2 (Nat.not_lt.mpr h3) with h | h | ⟨-, hex⟩
    · omega
    · omega
    · exact hex

/-- Witness for C7: registering with email `X@Y.com ` stores its
normalized form `x@y.com` and the trimmed name. -/
theorem register_validation_spec_witness :
    ∃ u, (Handler.handleRegisterCore (fun _ => some "bh")
        ⟨"X@Y.com ", "longpass", " Bob "⟩ stEx 5).2.users = stEx.users ++ [u] ∧
      u.email = normalizeEmail "X@Y.com " ∧ u.name = trimSpace " Bob " := by
  have h := (register_validation_spec (fun _ => some "bh")
      ⟨"X@Y.com ", "longpass", " Bob "⟩ stEx 5).2.2.2
  exact h (by decide)


/-! ### C8: no password hash in any response body -/

/-- C8.  No response of the four auth endpoints that serialize users —
register (201), login (200), profile read (200), profile update
(200) — carries a `password_hash` key anywhere in its JSON body
(`PasswordHash` is tagged `json:"-"`), and whenever one of them answers
with its success status the body is exactly the hash-free user (or
user+session) serialization, whose only string leaves are the email,
the name and, for login, the session token. -/
theorem success_responses_omit_password_hash
    (hashF : String → Option String) (verify : String → String → Bool)
    (tokGen : Option String) (ttl : Nat) (rin : RegisterRequest)
    (lin : LoginRequest) (uid : Nat) (uin : UpdateProfileRequest)
    (st : DBState) (now : Nat) (hdr : String) (u : User) (s : Session) :
    hasKeyDepth2 "password_hash" (Handler.handleRegisterCore hashF rin st now).1.body = false ∧
    hasKeyDepth2 "password_hash" (Handler.handleLoginCore verify tokGen ttl lin st now).1.body = false ∧
    hasKeyDepth2 "password_hash" (Handler.handleGetProfile st now hdr).1.body = false ∧
    hasKeyDepth2 "password_hash" (Handler.handleUpdateProfileCore uid uin st now).1.body = false ∧
    ((Handler.handleRegisterCore hashF rin st now).1.status = 201 →
      ∃ w, (Handler.handleRegisterCore hashF rin st now).1.body = User.toJson w) ∧
    ((Handler.handleLoginCore verify tokGen ttl lin st now).1.status = 200 →
      ∃ w s2, (Handler.handleLoginCore verify tokGen ttl lin st now).1.body
        = LoginResponse.toJson w s2) ∧
    ((Handler.handleGetProfile st now hdr).1.status = 200 →
      ∃ w, (Handler.handleGetProfile st now hdr).1.body = User.toJson w) ∧
    ((Handler.handleUpdateProfileCore uid uin st now).1.status = 200 →
      ∃ w, (Handler.handleUpdateProfileCore uid uin st now).1.body = User.toJson w) ∧
    leafStrings (User.toJson u) = [u.email, u.name] ∧
    leafStrings (LoginResponse.toJson u s) = [u.email, u.name, s.token] := by
  refine ⟨?_, ?_, ?_, ?_, ?_, ?_, ?_, ?_, rfl, rfl⟩
  · unfold Handler.handleRegisterCore
    try dsimp only
    repeat' split
    all_goals rfl
  · unfold Handler.handleLoginCore
    try dsimp only
    repeat' split
    all_goals rfl
  · unfold Handler.handleGetProfile
    try dsimp only
    repeat' split
    all_goals rfl
  · unfold Handler.handleUpdateProfileCore Handler.updateNameStep Handler.updateStoreStep
    try dsimp only
    repeat' split
    all_goals rfl
  · unfold Handler.handleRegisterCore
    try dsimp only
    repeat' split
    all_goals intro h
    all_goals first
      | exact ⟨_, rfl⟩
      | exact absurd h (by simp [errorResponse])
  · unfold Handler.handleLoginCore
    try dsimp only
    repeat' split
    all_goals intro h
    all_goals first
      | exact ⟨_, _, rfl⟩
      | exact absurd h (by simp [errorResponse])
  · unfold Handler.handleGetProfile
    try dsimp only
    repeat' split
    all_goals intro h
    all_goals first
      | exact ⟨_, rfl⟩
      | exact absurd h (by simp [errorResponse])
  · unfold Handler.handleUpdateProfileCore Handler.updateNameStep Handler.updateStoreStep
    try dsimp only
    repeat' split
    all_goals intro h
    all_goals first
      | exact ⟨_, rfl⟩
      | exact absurd h (by simp [errorResponse])

/-- Witness for C8: the 200 profile read for the live session in `stEx`
returns exactly a hash-free user serialization. -/
theorem success_responses_omit_password_hash_witness :
    ∃ w, (Handler.handleGetProfile stEx 5 "Bearer stok").1.body = User.toJson w :=
  (success_responses_omit_password_hash (fun _ => none) (fun _ _ => false) none 0
    ⟨"", "", ""⟩ ⟨"", ""⟩ 0 ⟨none, none⟩ stEx 5 "Bearer stok" uA ⟨"", 0⟩).2.2.2.2.2.2.1
    (by decide)

/-! ### C9: strict body decoding -/

/-- A body violates the single-JSON-object contract for a struct with
fields `allowed` when it is malformed, holds no value or more than one
top-level value, its single value is not an object, or the object has a
field outside `allowed`. -/
def violatesSingleObject (allowed : List String) : BodyStream → Bool
  | .malformed => true
  | .values vs =>
    match vs with
    | [.obj fields] => fields.any (fun p => !(allowed.contains p.1))
    | _ => true

/-- A violating body either makes `decodeJSON` fail with a non-empty
message, or is the single JSON `null`, which decodes to the zero-valued
struct. -/
lemma decode_of_violation (allowed : List String) (body : BodyStream)
    (h : violatesSingleObject allowed body = true) :
    (∃ m, ¬ m = "" ∧ decodeJSON allowed body = .error m) ∨
    (body = .values [.null] ∧ decodeJSON allowed body = .ok []) := by
  cases body with
  | malformed => exact .inl ⟨"invalid JSON", by decide, rfl⟩
  | values vs =>
    match vs with
    | [] => exact .inl ⟨"EOF", by decide, rfl⟩
    | (v :: rest) =>
      cases v with
      | obj fields =>
        cases hfind : fields.find? (fun p => !(allowed.contains p.1)) with
        | some p =>
          refine .inl ⟨"json: unknown field " ++ p.1, ?_, ?_⟩
          · exact append_ne_empty_of_left _ _ (by decide)
          · show (match fields.find? (fun p => !(allowed.contains p.1)) with
                | some q => (Except.error ("json: unknown field " ++ q.1) :
                    Except String (List (String × JsonVal)))
                | none => if rest.isEmpty then .ok fields
                          else .error "body must contain a single JSON object")
              = .error ("json: unknown field " ++ p.1)
            rw [hfind]
        | none =>
          cases rest with
          | nil =>
            exfalso
            rw [List.find?_eq_none] at hfind
            have hany : fields.any (fun p => !(allowed.contains p.1)) = true := by
              simpa [violatesSingleObject] using h
            obtain ⟨p, hp, hpp⟩ := List.any_eq_true.mp hany
            exact absurd hpp (by simpa using hfind p hp)
          | cons w ws =>
            refine .inl ⟨"body must contain a single JSON object", by decide, ?_⟩
            show (match fields.find? (fun p => !(allowed.contains p.1)) with
                | some q => (Except.error ("json: unknown field " ++ q.1) :
                    Except String (List (String × JsonVal)))
                | none => if (w :: ws).isEmpty then .ok fields
                          else .error "body must contain a single JSON object")
              = .error "body must contain a single JSON object"
            rw [hfind]
            rfl
      | null =>
        cases rest with
        | nil => exact .inr ⟨rfl, rfl⟩
        | cons w ws =>
          exact .inl ⟨"body must contain a single JSON object", by decide, rfl⟩
      | bool b =>
        exact .inl ⟨"json: cannot unmarshal value into struct", by decide, rfl⟩
      | num n =>
        exact .inl ⟨"json: cannot unmarshal value into struct", by decide, rfl⟩
      | str s2 =>
        exact .inl ⟨"json: cannot unmarshal value into struct", by decide, rfl⟩

/-- C9.  For every body-carrying auth endpoint (register, login,
forgot-password, reset-password, and profile update once the bearer of
a valid session reaches body handling), a body that is not exactly one
JSON object with only recognized fields and no trailing content is
answered with status 400, an `{"error": <non-empty message>}` body, and
no state change. -/
theorem body_decode_violations_rejected
    (hashF : String → Option String) (verify : String → String → Bool)
    (tokGen : Option String) (f : TxFaults) (ttlS ttlR : Nat)
    (body : BodyStream) (st : DBState) (now : Nat) (hdr : String) :
    (violatesSingleObject registerFields body = true →
      ∃ m, ¬ m = "" ∧
        Handler.handleRegister hashF body st now = (errorResponse 400 m, st)) ∧
    (violatesSingleObject loginFields body = true →
      ∃ m, ¬ m = "" ∧
        Handler.handleLogin verify tokGen ttlS body st now = (errorResponse 400 m, st)) ∧
    (violatesSingleObject forgotFields body = true →
      ∃ m, ¬ m = "" ∧
        Handler.handleForgotPassword tokGen ttlR body st now = (errorResponse 400 m, st)) ∧
    (violatesSingleObject resetFields body = true →
      ∃ m, ¬ m = "" ∧
        Handler.handleResetPassword hashF f body st now = (errorResponse 400 m, st)) ∧
    (∀ u, Handler.authenticate st now hdr = .ok u →
      violatesSingleObject updateProfileFields body = true →
      ∃ m, ¬ m = "" ∧
        Handler.handleUpdateProfile body st now hdr = (errorResponse 400 m, st)) := by
  refine ⟨?_, ?_, ?_, ?_, ?_⟩
  · intro hviol
    rcases decode_of_violation _ _ hviol with ⟨m, hm, hdec⟩ | ⟨hbody, -⟩
    · have hp : parseRegisterRequest body = .error m := by
        unfold parseRegisterRequest
        rw [hdec]
        rfl
      exact ⟨m, hm, by simp [Handler.handleRegister, hp]⟩
    · subst hbody
      exact ⟨"invalid email", by decide, rfl⟩
  · intro hviol
    rcases decode_of_violation _ _ hviol with ⟨m, hm, hdec⟩ | ⟨hbody, -⟩
    · have hp : parseLoginRequest body = .error m := by
        unfold parseLoginRequest
        rw [hdec]
        rfl
      exact ⟨m, hm, by simp [Handler.handleLogin, hp]⟩
    · subst hbody
      exact ⟨"invalid email", by decide, rfl⟩
  · intro hviol
    rcases decode_of_violation _ _ hviol with ⟨m, hm, hdec⟩ | ⟨hbody, -⟩
    · have hp : parseForgotRequest body = .error m := by
        unfold parseForgotRequest
        rw [hdec]
        rfl
      exact ⟨m, hm, by simp [Handler.handleForgotPassword, hp]⟩
    · subst hbody
      exact ⟨"invalid email", by decide, rfl⟩
  · intro hviol
    rcases decode_of_violation _ _ hviol with ⟨m, hm, hdec⟩ | ⟨hbody, -⟩
    · have hp : parseResetRequest body = .error m := by
        unfold parseResetRequest
        rw [hdec]
        rfl
      exact ⟨m, hm, by simp [Handler.handleResetPassword, hp]⟩
    · subst hbody
      exact ⟨"token is required", by decide, rfl⟩
  · intro u hauth hviol
    rcases decode_of_violation _ _ hviol with ⟨m, hm, hdec⟩ | ⟨hbody, -⟩
    · have hp : parseUpdateProfileRequest body = .error m := by
        unfold parseUpdateProfileRequest
        rw [hdec]
        rfl
      exact ⟨m, hm, by simp [Handler.handleUpdateProfile, hauth, hp]⟩
    · subst hbody
      exact ⟨"provide email or name", by decide,
        by simp [Handler.handleUpdateProfile, hauth]; rfl⟩

/-- Witness for C9: a body with the unknown field `admin` makes
register answer 400 with a non-empty message and leave `stEx`
unchanged. -/
theorem body_decode_violations_rejected_witness :
    ∃ m, ¬ m = "" ∧
      Handler.handleRegister (fun _ => some "h")
        (.values [.obj [("admin", .bool true)]]) stEx 5 = (errorResponse 400 m, stEx) :=
  (body_decode_violations_rejected (fun _ => some "h") (fun _ _ => false) none
    TxFaults.noFaults 1 1 (.values [.obj [("admin", .bool true)]]) stEx 5 "").1
    (by decide)

/-! ### C10: the profile update only touches the supplied fields -/

/-- C10.  A successful `UpdateUser` applies `COALESCE` semantics: a
field sent as SQL `NULL` (an omitted request field) keeps the stored
value, the row's id, password hash and `created_at` are untouched,
`updated_at` becomes the update time, every other user row is left
exactly as it was, and the sessions and resets tables do not change. -/
theorem updateUser_frame
    (st : DBState) (now : Nat) (id : Nat) (emailOpt nameOpt : Option String)
    (old : User) (hfind : st.users.find? (fun u => u.id == id) = some old)
    (u' : User) (st' : DBState)
    (hok : Store.UpdateUser st now id emailOpt nameOpt = .ok (u', st')) :
    u'.id = old.id ∧
    u'.email = emailOpt.getD old.email ∧
    u'.name = nameOpt.getD old.name ∧
    u'.passwordHash = old.passwordHash ∧
    u'.createdAt = old.createdAt ∧
    u'.updatedAt = now ∧
    st'.users = st.users.map (fun v =>
      if v.id == id then
        { v with email := emailOpt.getD v.email, name := nameOpt.getD v.name,
                 updatedAt := now }
      else v) ∧
    (∀ v ∈ st.users, ¬ v.id = id → v ∈ st'.users) ∧
    st'.sessions = st.sessions ∧ st'.resets = st.resets ∧
    st'.nextUserId = st.nextUserId := by
  unfold Store.UpdateUser at hok
  cases hraw : rawUpdateUser st now id emailOpt nameOpt with
  | error e =>
    rw [hraw] at hok
    have h' : (if isUniqueViolation e then
        (.error .emailExists : Except StoreErr (User × DBState))
        else .error (.db e)) = .ok (u', st') := hok
    cases hq : isUniqueViolation e <;> simp [hq] at h'
  | ok r =>
    rw [hraw] at hok
    injection hok with hok
    subst hok
    unfold rawUpdateUser at hraw
    rw [hfind] at hraw
    have hraw' : (if st.users.any (fun v => v.id != id && v.email == (emailOpt.getD old.email)) then (.error (.pg uniqueViolationCode) : Except DbErr (User × DBState)) else .ok ({ old with email := emailOpt.getD old.email, name := nameOpt.getD old.name, updatedAt := now }, { st with users := st.users.map (fun v => if v.id == id then { v with email := emailOpt.getD v.email, name := nameOpt.getD v.name, updatedAt := now } else v) })) = .ok (u', st') := hraw
    cases hany : st.users.any
        (fun v => v.id != id && v.email == (emailOpt.getD old.email)) with
    | true => rw [hany] at hraw'; exact absurd hraw' (by simp)
    | false =>
      rw [hany] at hraw'
      rw [if_neg (by simp)] at hraw'
      injection hraw' with hraw'
      rw [Prod.mk.injEq] at hraw'
      obtain ⟨h1, h2⟩ := hraw'
      subst h1
      subst h2
      refine ⟨rfl, rfl, rfl, rfl, rfl, rfl, rfl, ?_, rfl, rfl, rfl⟩
      intro v hv hne
      have hbeq : (v.id == id) = false := beq_eq_false_iff_ne.mpr hne
      exact List.mem_map.mpr ⟨v, hv, by simp [hbeq]⟩

/-- Witness for C10: updating only the email of `uA` keeps its name,
hash and creation time, and stamps `updated_at`. -/
theorem updateUser_frame_witness :
    (⟨1, "n@e.com", "Al", "oldhash", 0, 7⟩ : User).passwordHash = uA.passwordHash ∧
    (⟨1, "n@e.com", "Al", "oldhash", 0, 7⟩ : User).name = (none : Option String).getD uA.name :=
  ⟨(updateUser_frame stEx 7 1 (some "n@e.com") none uA (by decide)
      ⟨1, "n@e.com", "Al", "oldhash", 0, 7⟩
      ⟨[⟨1, "n@e.com", "Al", "oldhash", 0, 7⟩], [⟨1, "stok", 100⟩], [⟨1, "rtok", 100⟩], 2⟩
      (by decide)).2.2.2.1,
   (updateUser_frame stEx 7 1 (some "n@e.com") none uA (by decide)
      ⟨1, "n@e.com", "Al", "oldhash", 0, 7⟩
      ⟨[⟨1, "n@e.com", "Al", "oldhash", 0, 7⟩], [⟨1, "stok", 100⟩], [⟨1, "rtok", 100⟩], 2⟩
      (by decide)).2.2.1⟩

end UserApi
